import Mathlib

/-
Verification of openquake/hazardlib/calc/hazard_curve.py (classical PSHA
hazard-curve aggregation core).

Shallow embedding conventions:
* probabilities are rational numbers;
* a per-site probability matrix of shape (levels, gsims) is flattened into a
  list of rationals of length nvals = levels * gsims, with numpy elementwise
  operations becoming List.zipWith / List.map;
* a ProbabilityMap is a sparse site-indexed map, embedded as a function from
  the site id to an optional curve (absent site = key not in the dict);
* external collaborators (ContextMaker.make_contexts, gsim.get_poes,
  rupture.get_probability_no_exceedance) are oracles recorded on each rupture:
  a rupture either raises FarAwayRupture, raises some other exception, or
  yields its affected site subset together with the per-site no-exceedance
  matrix;
* Python exceptions are an Except monad over an error record (exception type,
  message); monitors and timing telemetry are not modelled, as they do not
  feed the aggregation math;
* calc_hazard_curves passes its arguments to pmap_from_grp and pmap_from_trt
  positionally, and those positions do not line up with the worker
  signatures, so the two argument slots are embedded with a dynamically
  typed value (PyArg) whose dictionary/list operations can raise TypeError
  exactly where CPython would.
-/

namespace HC

/-- One site's probability values: the flattened (levels x gsims) matrix of
rationals. -/
abbrev Curve := List ℚ

/-- Elementwise product of two curves (numpy array multiplication). -/
def mulCurve (a b : Curve) : Curve := List.zipWith (fun x y => x * y) a b

/-- Elementwise x + y * w (numpy pmap[sid].array += pne * weight). -/
def addScaled (w : ℚ) (a b : Curve) : Curve :=
  List.zipWith (fun x y => x + y * w) a b

/-- Elementwise sum of two curves. -/
def addCurve (a b : Curve) : Curve := List.zipWith (fun x y => x + y) a b

/-- Elementwise complement 1 - x. -/
def complCurve (a : Curve) : Curve := a.map (fun x => 1 - x)

/-- Elementwise scaling by a scalar. -/
def scaleCurve (w : ℚ) (a : Curve) : Curve := a.map (fun x => x * w)

/-- Probabilistic OR of two probabilities. -/
def orQ (a b : ℚ) : ℚ := 1 - (1 - a) * (1 - b)

/-- Elementwise probabilistic OR of two curves. -/
def orCurve (a b : Curve) : Curve := List.zipWith orQ a b

/-- ProbabilityMap: sparse site-indexed probability map, from site id to the
optional curve stored for that site. -/
abbrev PMap := ℕ → Option Curve

/-- Modelled from the spec: the OR combination of two optional curves used by
ProbabilityMap.__ior__ of the absent openquake/hazardlib/probability_map.py;
per section 4.1 of the spec an absent site is the identity 0 for OR. -/
def orOpt : Option Curve → Option Curve → Option Curve
  | none, c => c
  | some a, none => some a
  | some a, some b => some (orCurve a b)

/-- Modelled from the spec: ProbabilityMap union via probabilistic OR (the
p |= q operator of the absent probability_map.py). -/
def pmapOr (p q : PMap) : PMap := fun sid => orOpt (p sid) (q sid)

/-- Modelled from the spec: ProbabilityMap complement (the unary tilde of the
absent probability_map.py), 1 - x elementwise on every stored curve. -/
def pmapCompl (p : PMap) : PMap := fun sid => (p sid).map complCurve

/-- Modelled from the spec: ProbabilityMap.build of the absent
probability_map.py, creating a map over the given site ids whose curves all
hold the initial value. -/
def pmapBuild (nvals : ℕ) (sids : List ℕ) (init : ℚ) : PMap :=
  fun sid => if sid ∈ sids then some (List.replicate nvals init) else none

/-- The empty ProbabilityMap (no sites stored). -/
def emptyPMap : PMap := fun _ => none

/-- A Python exception: its type and its message. -/
structure Err where
  etype : String
  msg : String
deriving DecidableEq, Repr

/-- Outcome of the external collaborators for one rupture, as seen by poe_map:
make_contexts either raises FarAwayRupture, raises some other exception, or
returns contexts from which get_probability_no_exceedance produces, for each
affected site, the flattened no-exceedance matrix.  The affected site list and
the no-exceedance oracle abstract those collaborators. -/
inductive RupOutcome where
  | farAway : RupOutcome
  | compute (affected : List ℕ) (pne : ℕ → Curve) : RupOutcome
  | failure (etype msg : String) : RupOutcome

/-- Whether the outcome contributes an effective rupture. -/
def isCompute : RupOutcome → Bool
  | RupOutcome.compute _ _ => true
  | _ => false

/-- Whether the outcome is an exception other than FarAwayRupture. -/
def isFailure : RupOutcome → Bool
  | RupOutcome.failure _ _ => true
  | _ => false

/-- A seismic source, with the attributes hazard_curve.py reads from it. -/
structure Source where
  source_id : String
  tectonic_region_type : String
  weights : Option (List ℚ)
  ruptures : List RupOutcome
  num_ruptures : ℕ
  sites : List ℕ
  weight : ℚ
  src_group_id : Option ℕ
  src_group_ids : List ℕ

/-- Translation of rupture_weight_pairs.  When the source has a weights
attribute the zipped (rupture, weight) pairs are yielded, and then, since that
branch does not return, the uniform pairs are yielded as well; iter_ruptures
is restartable, so both passes see the same rupture sequence.  The uniform
weight divides by num_ruptures when nonzero, else by the counted ruptures. -/
def rupture_weight_pairs (src : Source) : List (RupOutcome × ℚ) :=
  (match src.weights with
   | some ws => List.zip src.ruptures ws
   | none => []) ++
  (let n : ℕ := if src.num_ruptures ≠ 0 then src.num_ruptures else src.ruptures.length
   src.ruptures.map (fun r => (r, (1 : ℚ) / (n : ℚ))))

/-- Result of poe_map: the per-source ProbabilityMap (exceedance space after
the final complement) and the effective rupture count. -/
structure PoeMap where
  field : PMap
  eff_ruptures : ℕ

/-- One iteration of the rupture loop of poe_map: FarAwayRupture is skipped,
any other exception is re-raised with the source id appended to the message,
and a computed rupture multiplies (independent) or weighted-adds (mutex) its
no-exceedance values into the curves of its affected sites. -/
def poeStep (sid0 : String) (ri : Bool) (acc : PMap × ℕ) :
    RupOutcome × ℚ → Except Err (PMap × ℕ)
  | (RupOutcome.farAway, _) => Except.ok acc
  | (RupOutcome.failure etype msg, _) =>
      Except.error ⟨etype, msg ++ " (source id=" ++ sid0 ++ ")"⟩
  | (RupOutcome.compute affected pne, w) =>
      Except.ok
        ((fun sid =>
          if sid ∈ affected then
            (acc.1 sid).map (fun c =>
              if ri then mulCurve c (pne sid) else addScaled w c (pne sid))
          else acc.1 sid),
         acc.2 + 1)

/-- Translation of poe_map: build the per-source map over s_sites with initial
value 1 (independent ruptures) or 0 (mutex ruptures), fold every
(rupture, weight) pair, and finally complement the map. -/
def poe_map (src : Source) (s_sites : List ℕ) (nvals : ℕ)
    (ri : Bool := true) : Except Err PoeMap :=
  ((rupture_weight_pairs src).foldlM (poeStep src.source_id ri)
      (pmapBuild nvals s_sites (if ri then 1 else 0), 0)).map
    (fun r => ⟨pmapCompl r.1, r.2⟩)

/-- The shared parameter dictionary built by calc_hazard_curves; imtls is
abstracted to the total number of intensity levels.  A key set to none is a
key absent from the dictionary. -/
structure Param where
  imtls : Option ℕ
  truncation_level : Option ℚ
  maximum_distance : Option ℚ

/-- The source filter; the embedding only needs the size of its complete site
collection. -/
structure SrcFilter where
  sitecol : ℕ

/-- A ground-shaking intensity model, external to the core; only its identity
matters here. -/
abbrev GSIM := String

/-- A dynamically typed Python argument.  calc_hazard_curves passes
ss_filter in the gsims position and [gsim] in the param position of the two
workers, so the embedded workers receive dynamic values whose dictionary and
list operations fail exactly where CPython would. -/
inductive PyArg where
  | gsimList (gs : List GSIM)
  | paramDict (p : Param)
  | srcFilter (f : SrcFilter)

/-- Python evaluation of the expression param["imtls"]: TypeError when the
argument is not a dictionary, KeyError when the key is absent. -/
def getImtls : PyArg → Except Err ℕ
  | PyArg.paramDict p =>
      match p.imtls with
      | some v => Except.ok v
      | none => Except.error ⟨"KeyError", "imtls"⟩
  | _ => Except.error ⟨"TypeError", "string key applied to a non-dict argument"⟩

/-- Python evaluation of the expression param["maximum_distance"]. -/
def getMaxDist : PyArg → Except Err ℚ
  | PyArg.paramDict p =>
      match p.maximum_distance with
      | some v => Except.ok v
      | none => Except.error ⟨"KeyError", "maximum_distance"⟩
  | _ => Except.error ⟨"TypeError", "string key applied to a non-dict argument"⟩

/-- Iterating over the gsims argument (list comprehension over gsims and
len(gsims)): only an actual gsim list supports it. -/
def asGsims : PyArg → Except Err (List GSIM)
  | PyArg.gsimList gs => Except.ok gs
  | _ => Except.error ⟨"TypeError", "gsims argument is not iterable"⟩

/-- A SourceGroup, with the attributes hazard_curve.py reads from it. -/
structure Group where
  id : ℕ
  trt : String
  sources : List Source
  srcs_weights : List ℚ
  src_interdep : String
  rup_interdep : String
  grp_probability : Option ℚ

/-- The dictionary built from zip(group.sources, group.srcs_weights) followed
by the lookup mutex_weight[src.source_id]: a later duplicate source id wins,
and a source id that the (possibly truncated) zip never produced raises
KeyError. -/
def mutexWeight (group : Group) (sid0 : String) : Except Err ℚ :=
  match (List.zip group.sources group.srcs_weights).reverse.find?
          (fun p => p.1.source_id == sid0) with
  | some p => Except.ok p.2
  | none => Except.error ⟨"KeyError", sid0⟩

/-- The accumulator dictionary returned by the group workers: association list
from grp_id (an integer, or None for a source without one) to ProbabilityMap,
in key insertion order.  The calc_times and monitor-based eff_ruptures
telemetry fields are instrumentation and are not modelled. -/
structure Acc where
  pmaps : List (Option ℕ × PMap)

/-- One iteration of the source loop of pmap_from_grp: run poe_map with
rup_indep tied to the group's rup_interdep flag, look up the source's mutex
weight, then fold the source field into the group field with
pcurve = pmap.setdefault(sid, 0); pcurve += poemap[sid] * weight.  The
setdefault semantics (an all-zero curve for an unseen site) is modelled from
the spec, probability_map.py being absent from src/. -/
def grpStep (group : Group) (nvals : ℕ) (pm : PMap) (src : Source) :
    Except Err PMap := do
  let poemap ← poe_map src src.sites nvals (group.rup_interdep == "indep")
  let w ← mutexWeight group src.source_id
  Except.ok (fun sid =>
    match poemap.field sid with
    | none => pm sid
    | some c =>
        some (addCurve ((pm sid).getD (List.replicate nvals 0)) (scaleCurve w c)))

/-- Translation of pmap_from_grp, the worker for a group of mutually exclusive
sources: read imtls and maximum_distance from the param argument, iterate the
gsims argument, fold every source with grpStep, then scale by the group
activation probability when present.  The result is keyed by the group id. -/
def pmap_from_grp (group : Group) (gsims param : PyArg) : Except Err Acc := do
  let L ← getImtls param
  let _ ← getMaxDist param
  let gs ← asGsims gsims
  let nvals := L * gs.length
  let folded ← group.sources.foldlM (grpStep group nvals) emptyPMap
  let final : PMap :=
    match group.grp_probability with
    | none => folded
    | some gp => fun sid => (folded sid).map (scaleCurve gp)
  Except.ok ⟨[(some group.id, final)]⟩

/-- AccumDict access pmap[grp_id] |= poe: OR the curve map into the entry when
the key is present, raise KeyError when the group id is not one of the keys
precomputed from the sources. -/
def dictOr (dict : List (Option ℕ × PMap)) (k : Option ℕ) (q : PMap) :
    Except Err (List (Option ℕ × PMap)) :=
  if dict.any (fun p => p.1 == k) then
    Except.ok (dict.map (fun p => if p.1 == k then (p.1, pmapOr p.2 q) else p))
  else Except.error ⟨"KeyError", "grp_id"⟩

/-- One iteration of the source loop of pmap_from_trt: poe_map is invoked with
the rup_indep parameter left at its default, then pmap[grp_id] |= poe for each
grp_id in src.src_group_ids. -/
def trtStep (nvals : ℕ) (dict : List (Option ℕ × PMap)) (src : Source) :
    Except Err (List (Option ℕ × PMap)) := do
  let poe ← poe_map src src.sites nvals
  src.src_group_ids.foldlM (fun d gid => dictOr d (some gid) poe.field) dict

/-- Translation of pmap_from_trt, the worker for independent sources: the key
set is the set of src_group_id values of the sources, each key starting from
an empty ProbabilityMap, and every source's poe_map result is OR-folded into
the entries named by its src_group_ids. -/
def pmap_from_trt (sources : List Source) (gsims param : PyArg) :
    Except Err Acc := do
  let gids := (sources.map (fun s => s.src_group_id)).dedup
  let L ← getImtls param
  let _ ← getMaxDist param
  let gs ← asGsims gsims
  let nvals := L * gs.length
  let dict0 := gids.map (fun g => (g, emptyPMap))
  let dict ← sources.foldlM (trtStep nvals) dict0
  Except.ok ⟨dict⟩

/-- The src_group_id assignment loop of calc_hazard_curves: every source still
lacking a group id receives the index of its group. -/
def assignIds : ℕ → List Group → List Group
  | _, [] => []
  | i, g :: gs =>
      { g with sources := g.sources.map (fun s =>
          match s.src_group_id with
          | none => { s with src_group_id := some i }
          | some _ => s) } :: assignIds (i + 1) gs

/-- Modelled from the spec: ProbabilityMap.convert of the absent
probability_map.py (spec section 4.4 step 6): dense per-site output over the
complete site collection, an untouched site defaulting to the all-zero curve. -/
def convert (p : PMap) (L : ℕ) (n : ℕ) : ℕ → Curve := fun sid =>
  if sid < n then (p sid).getD (List.replicate L 0) else List.replicate L 0

/-- Python list indexing at position zero: IndexError on an empty list. -/
def headIdx {α : Type} (l : List α) : Except Err α :=
  match l.head? with
  | some a => Except.ok a
  | none => Except.error ⟨"IndexError", "list index out of range"⟩

/-- One group iteration of the orchestrator loop of calc_hazard_curves: the
mutex branch calls pmap_from_grp(group, ss_filter, [gsim], param) and the
independent branch applies pmap_from_trt to (group, ss_filter, [gsim], param)
through the sequential dispatcher; in both calls ss_filter occupies the gsims
parameter and [gsim] occupies the param parameter (param itself lands in the
monitor parameter, which the embedding does not model).  Every map of every
returned dictionary is folded into the top-level field with |=. -/
def calcGroupStep (f : SrcFilter) (gsim : GSIM) (pm : PMap) (group : Group) :
    Except Err PMap := do
  let results ←
    (if group.src_interdep == "mutex" then do
      let a ← pmap_from_grp group (PyArg.srcFilter f) (PyArg.gsimList [gsim])
      Except.ok [a]
    else do
      let a ← pmap_from_trt group.sources (PyArg.srcFilter f)
                (PyArg.gsimList [gsim])
      Except.ok [a])
  Except.ok (results.foldl
    (fun pm acc => acc.pmaps.foldl (fun pm gp => pmapOr pm gp.2) pm) pm)

/-- Translation of calc_hazard_curves for an input already made of
SourceGroup instances: index the first group (the isinstance check), assign
group ids, build the param dictionary from imtls and truncation_level only,
resolve the single gsim from the tectonic region type of the first source of
the first group, fold every group with calcGroupStep, and convert the final
sparse field into the dense per-site output. -/
def calc_hazard_curves (groups : List Group) (ss_filter : SrcFilter) (L : ℕ)
    (gsim_by_trt : String → Option GSIM) (truncation_level : Option ℚ) :
    Except Err (ℕ → Curve) := do
  let _ ← headIdx groups
  let groups2 := assignIds 0 groups
  let _param : Param := ⟨some L, truncation_level, none⟩
  let g0 ← headIdx groups2
  let s0 ← headIdx g0.sources
  let gsim ← (match gsim_by_trt s0.tectonic_region_type with
    | some g => Except.ok g
    | none => Except.error ⟨"KeyError", s0.tectonic_region_type⟩)
  let pm ← groups2.foldlM (calcGroupStep ss_filter gsim) emptyPMap
  Except.ok (convert pm L ss_filter.sitecol)

/-- Pure field update of one rupture pair, the successful branches of
poeStep. -/
def pureStep (ri : Bool) (pm : PMap) : RupOutcome × ℚ → PMap
  | (RupOutcome.compute affected pne, w) => fun sid =>
      if sid ∈ affected then
        (pm sid).map (fun c =>
          if ri then mulCurve c (pne sid) else addScaled w c (pne sid))
      else pm sid
  | _ => pm

/-- Pure evaluation of poe_map on a source none of whose rupture pairs raise:
fold the pure steps and count the computed ruptures. -/
def poePure (src : Source) (s_sites : List ℕ) (nvals : ℕ) (ri : Bool) :
    PoeMap :=
  ⟨pmapCompl ((rupture_weight_pairs src).foldl (pureStep ri)
      (pmapBuild nvals s_sites (if ri then 1 else 0))),
   (rupture_weight_pairs src).countP (fun pr => isCompute pr.1)⟩

/-- First non-FarAway exception among the rupture pairs, with its type and
message. -/
def firstFailure (pairs : List (RupOutcome × ℚ)) : Option (String × String) :=
  pairs.findSome? (fun pr =>
    match pr.1 with
    | RupOutcome.failure k m => some (k, m)
    | _ => none)

/-- The per-unit runs of an independent group followed by the top-level fold
of calc_hazard_curves (lines 286-291): each work unit executes pmap_from_trt
over its sources and every returned map is OR-folded into the top field. -/
def indepUnitsField (units : List (List Source)) (gsims param : PyArg) :
    Except Err PMap := do
  let accs ← units.mapM (fun u => pmap_from_trt u gsims param)
  Except.ok (accs.foldl
    (fun pm acc => acc.pmaps.foldl (fun pm gp => pmapOr pm gp.2) pm) emptyPMap)

/-- The mutex weight of a source inside its group as a total function (for use
in statements about groups whose every source has a configured weight). -/
def mutexWeightFn (group : Group) (sid0 : String) : ℚ :=
  match (List.zip group.sources group.srcs_weights).reverse.find?
          (fun p => p.1.source_id == sid0) with
  | some p => p.2
  | none => 0

/-- The spec-side value of the mutex group field at one site: the weighted sum
of the exceedance curves of the sources touching that site, accumulated from
an all-zero curve, absent when no source touches the site. -/
def groupWeightedSum (group : Group) (nvals : ℕ) (sid : ℕ) : Option Curve :=
  let contribs := group.sources.filterMap (fun s =>
    ((poePure s s.sites nvals (group.rup_interdep == "indep")).field sid).map
      (fun c => scaleCurve (mutexWeightFn group s.source_id) c))
  match contribs with
  | [] => none
  | _ => some (contribs.foldl addCurve (List.replicate nvals 0))

/-- A copy of a source with the given configured rupture weights. -/
def withWeights (s : Source) (ws : List ℚ) : Source :=
  { s with weights := some ws }

/-- Pure accumulator transformer for one rupture pair: the field update
together with the effective-rupture increment. -/
def pureAcc (ri : Bool) (a : PMap × ℕ) (pr : RupOutcome × ℚ) : PMap × ℕ :=
  (pureStep ri a.1 pr, a.2 + (if isCompute pr.1 then 1 else 0))

/-- The exceedance field a single source contributes on the independent path
(poe_map with its default rup_indep). -/
def contribAt (nvals : ℕ) (s : Source) : PMap :=
  (poePure s s.sites nvals true).field

/-- The field one work unit accumulates for its shared group id. -/
def unitField (nvals : ℕ) (u : List Source) : PMap :=
  u.foldl (fun q s => pmapOr q (contribAt nvals s)) emptyPMap

/-- The accumulator dictionary one work unit of sources sharing the group id
g0 returns. -/
def unitAcc (g0 : ℕ) (nvals : ℕ) (u : List Source) : Acc :=
  match u with
  | [] => ⟨[]⟩
  | _ => ⟨[(some g0, unitField nvals u)]⟩

/-- Pure evaluation of one source step of pmap_from_grp when nothing raises. -/
def pureGrpStep (group : Group) (nvals : ℕ) (pm : PMap) (s : Source) : PMap :=
  fun sid =>
    match (poePure s s.sites nvals (group.rup_interdep == "indep")).field sid with
    | none => pm sid
    | some c =>
        some (addCurve ((pm sid).getD (List.replicate nvals 0))
          (scaleCurve (mutexWeightFn group s.source_id) c))

/-- Concrete fixture: a rupture whose no-exceedance value at every affected
site and level is one half. -/
def rupHalf : RupOutcome := RupOutcome.compute [0] (fun _ => [(1 : ℚ)/2])

/-- Concrete fixture for the mutex-rupture double-count evaluation: one
rupture, configured weight 1, no-exceedance one half (exceedance one half). -/
def src4 : Source :=
  { source_id := "m4", tectonic_region_type := "T", weights := some [1],
    ruptures := [rupHalf], num_ruptures := 1, sites := [0], weight := 1,
    src_group_id := some 0, src_group_ids := [0] }

/-- Concrete fixture: an ordinary source of one far-away rupture. -/
def src1 : Source :=
  { source_id := "s1", tectonic_region_type := "T", weights := none,
    ruptures := [RupOutcome.farAway], num_ruptures := 1, sites := [0],
    weight := 1, src_group_id := some 0, src_group_ids := [0] }

/-- Concrete fixture: a mutex source group around src1. -/
def grp1m : Group :=
  { id := 0, trt := "T", sources := [src1], srcs_weights := [1],
    src_interdep := "mutex", rup_interdep := "indep", grp_probability := none }

/-- Concrete fixture: a second source for an independent group. -/
def src1b : Source :=
  { source_id := "s2", tectonic_region_type := "T", weights := none,
    ruptures := [RupOutcome.farAway], num_ruptures := 1, sites := [0],
    weight := 1, src_group_id := some 1, src_group_ids := [1] }

/-- Concrete fixture: an independent source group around src1b. -/
def grp1i : Group :=
  { id := 1, trt := "T", sources := [src1b], srcs_weights := [1],
    src_interdep := "indep", rup_interdep := "indep", grp_probability := none }

/-- Concrete fixture: the gsim assignment for tectonic region type T. -/
def gbt1 : String → Option GSIM := fun t => if t == "T" then some ("M1") else none

/-- Concrete fixture: a single source of one rupture with exceedance one third
at site 0 (no-exceedance two thirds), inside a site collection of size 3. -/
def src2 : Source :=
  { source_id := "s", tectonic_region_type := "T2", weights := none,
    ruptures := [RupOutcome.compute [0] (fun _ => [(2 : ℚ)/3])],
    num_ruptures := 1, sites := [0, 1], weight := 1,
    src_group_id := some 0, src_group_ids := [0] }

/-- Concrete fixture: the independent/independent group of src2 with
activation probability 1. -/
def grp2 : Group :=
  { id := 0, trt := "T2", sources := [src2], srcs_weights := [1],
    src_interdep := "indep", rup_interdep := "indep",
    grp_probability := some 1 }

/-- Concrete fixture: the gsim assignment for tectonic region type T2. -/
def gbt2 : String → Option GSIM := fun t => if t == "T2" then some ("M2") else none

/-- Concrete fixture: a weighted (mutex-rupture) source of one rupture with
configured weight two fifths. -/
def src6 : Source :=
  { source_id := "m6", tectonic_region_type := "T", weights := some [(2 : ℚ)/5],
    ruptures := [RupOutcome.farAway], num_ruptures := 1, sites := [],
    weight := 1, src_group_id := some 0, src_group_ids := [0] }

/-- Concrete fixture: a source both of whose ruptures are far away. -/
def src7 : Source :=
  { source_id := "s7", tectonic_region_type := "T", weights := none,
    ruptures := [RupOutcome.farAway, RupOutcome.farAway], num_ruptures := 2,
    sites := [0, 1], weight := 1, src_group_id := some 0, src_group_ids := [0] }

/-- Concrete fixture: a source whose second rupture raises ValueError with
message boom. -/
def src8 : Source :=
  { source_id := "s8", tectonic_region_type := "T", weights := none,
    ruptures := [RupOutcome.farAway, RupOutcome.failure ("ValueError") ("boom")],
    num_ruptures := 2, sites := [0], weight := 1,
    src_group_id := some 3, src_group_ids := [3] }

/-- Concrete fixture: the group containing src8. -/
def grp8 : Group :=
  { id := 3, trt := "T", sources := [src8], srcs_weights := [1],
    src_interdep := "mutex", rup_interdep := "indep", grp_probability := none }

/-- Concrete fixture: a valid parameter dictionary for the src8 group. -/
def pp8 : Param := ⟨some 1, none, some 200⟩

/-- Concrete fixture: a source of tectonic region type T1. -/
def src9 : Source :=
  { source_id := "s9", tectonic_region_type := "T1", weights := none,
    ruptures := [RupOutcome.farAway], num_ruptures := 1, sites := [0],
    weight := 1, src_group_id := some 0, src_group_ids := [0] }

/-- Concrete fixture: the group containing src9. -/
def grp9 : Group :=
  { id := 0, trt := "T1", sources := [src9], srcs_weights := [1],
    src_interdep := "mutex", rup_interdep := "indep", grp_probability := none }

/-- Concrete fixture: a gsim assignment defined only at T1. -/
def gbt9a : String → Option GSIM :=
  fun t => if t == "T1" then some ("M1") else none

/-- Concrete fixture: a gsim assignment agreeing with gbt9a at T1 and
differing everywhere else. -/
def gbt9b : String → Option GSIM :=
  fun t => if t == "T1" then some ("M1") else some ("Other")

/-- Concrete fixture: the empty gsim assignment. -/
def gbt9n : String → Option GSIM := fun _ => none

/-- Concrete fixture: first independent source of group 7, exceedance one half
at site 0. -/
def src3a : Source :=
  { source_id := "a3", tectonic_region_type := "T", weights := none,
    ruptures := [RupOutcome.compute [0] (fun _ => [(1 : ℚ)/2])],
    num_ruptures := 1, sites := [0], weight := 1,
    src_group_id := some 7, src_group_ids := [7] }

/-- Concrete fixture: second independent source of group 7, exceedance two
thirds at sites 0 and 1. -/
def src3b : Source :=
  { source_id := "b3", tectonic_region_type := "T", weights := none,
    ruptures := [RupOutcome.compute [0, 1] (fun _ => [(1 : ℚ)/3])],
    num_ruptures := 1, sites := [0, 1], weight := 1,
    src_group_id := some 7, src_group_ids := [7] }

/-- Concrete fixture: a valid parameter dictionary for the partition test. -/
def pp3 : Param := ⟨some 1, none, some 200⟩

/-- Concrete fixture: a mutex-group source contributing exceedance 1 at
site 0 (no-exceedance 0). -/
def src5a : Source :=
  { source_id := "a5", tectonic_region_type := "T", weights := none,
    ruptures := [RupOutcome.compute [0] (fun _ => [(0 : ℚ)])],
    num_ruptures := 1, sites := [0], weight := 1,
    src_group_id := some 0, src_group_ids := [0] }

/-- Concrete fixture: a second mutex-group source contributing exceedance 1
at site 0. -/
def src5b : Source :=
  { source_id := "b5", tectonic_region_type := "T", weights := none,
    ruptures := [RupOutcome.compute [0] (fun _ => [(0 : ℚ)])],
    num_ruptures := 1, sites := [0], weight := 1,
    src_group_id := some 0, src_group_ids := [0] }

/-- Concrete fixture: the mutex group of src5a and src5b with weights three
tenths and seven tenths. -/
def grp5 : Group :=
  { id := 0, trt := "T", sources := [src5a, src5b],
    srcs_weights := [(3 : ℚ)/10, (7 : ℚ)/10], src_interdep := "mutex",
    rup_interdep := "indep", grp_probability := none }

/-- Concrete fixture: a valid parameter dictionary for the mutex group. -/
def pp5 : Param := ⟨some 1, none, some 200⟩

/-- Concrete fixture: the base of a weighted source whose rupture weights the
c10 statements vary. -/
def srcW : Source :=
  { source_id := "w", tectonic_region_type := "T", weights := none,
    ruptures := [rupHalf], num_ruptures := 1, sites := [0], weight := 1,
    src_group_id := some 0, src_group_ids := [0] }

/-- Concrete fixture: a valid parameter dictionary for the trt worker. -/
def pp10 : Param := ⟨some 1, none, some 200⟩

theorem ok_bind {α β : Type} (a : α) (f : α → Except Err β) :
    (Except.ok a >>= f) = f a := rfl

theorem error_bind {α β : Type} (e : Err) (f : α → Except Err β) :
    ((Except.error e : Except Err α) >>= f) = Except.error e := rfl

theorem map_ok {α β : Type} (f : α → β) (a : α) :
    (Except.ok a : Except Err α).map f = Except.ok (f a) := rfl

theorem map_error {α β : Type} (f : α → β) (e : Err) :
    (Except.error e : Except Err α).map f = (Except.error e : Except Err β) := rfl

theorem orQ_comm (a b : ℚ) : orQ a b = orQ b a := by
  unfold orQ; ring

theorem orQ_assoc (a b c : ℚ) : orQ (orQ a b) c = orQ a (orQ b c) := by
  unfold orQ; ring

theorem orCurve_comm (a b : Curve) : orCurve a b = orCurve b a :=
  List.zipWith_comm_of_comm orQ orQ_comm a b

theorem orCurve_assoc (a b c : Curve) :
    orCurve (orCurve a b) c = orCurve a (orCurve b c) := by
  induction a generalizing b c with
  | nil => simp [orCurve]
  | cons x xs ih =>
    cases b with
    | nil => simp [orCurve]
    | cons y ys =>
      cases c with
      | nil => simp [orCurve]
      | cons z zs =>
        simp only [orCurve, List.zipWith_cons_cons]
        rw [orQ_assoc]
        exact congrArg _ (ih ys zs)

theorem orOpt_none_right (a : Option Curve) : orOpt a none = a := by
  cases a <;> rfl

theorem orOpt_comm (a b : Option Curve) : orOpt a b = orOpt b a := by
  cases a <;> cases b <;> simp [orOpt, orCurve_comm]

theorem orOpt_assoc (a b c : Option Curve) :
    orOpt (orOpt a b) c = orOpt a (orOpt b c) := by
  cases a <;> cases b <;> cases c <;> simp [orOpt, orCurve_assoc]

instance : Std.Associative orOpt := ⟨orOpt_assoc⟩

instance : RightCommutative orOpt :=
  ⟨fun b a1 a2 => by rw [orOpt_assoc, orOpt_assoc, orOpt_comm a1 a2]⟩

theorem pmapOr_empty_left (q : PMap) : pmapOr emptyPMap q = q := by
  funext sid; rfl

theorem fst_mem_of_mem_pairs (src : Source) (pr : RupOutcome × ℚ)
    (h : pr ∈ rupture_weight_pairs src) : pr.1 ∈ src.ruptures := by
  obtain ⟨r, w⟩ := pr
  unfold rupture_weight_pairs at h
  cases hw : src.weights with
  | none =>
    rw [hw] at h
    simp only [List.nil_append] at h
    obtain ⟨r2, hr2, he⟩ := List.mem_map.mp h
    cases he
    exact hr2
  | some ws =>
    rw [hw] at h
    rcases List.mem_append.mp h with h | h
    · exact (List.of_mem_zip h).1
    · obtain ⟨r2, hr2, he⟩ := List.mem_map.mp h
      cases he
      exact hr2

theorem pairs_no_failure (src : Source)
    (h : ∀ r ∈ src.ruptures, isFailure r = false) :
    ∀ pr ∈ rupture_weight_pairs src, isFailure pr.1 = false :=
  fun pr hpr => h pr.1 (fst_mem_of_mem_pairs src pr hpr)

theorem poeStep_eq_pure (sid0 : String) (ri : Bool) (acc : PMap × ℕ)
    (pr : RupOutcome × ℚ) (h : isFailure pr.1 = false) :
    poeStep sid0 ri acc pr = Except.ok (pureAcc ri acc pr) := by
  obtain ⟨r, w⟩ := pr
  cases r with
  | farAway => simp [poeStep, pureAcc, pureStep, isCompute]
  | compute a p => simp [poeStep, pureAcc, pureStep, isCompute]
  | failure k m => simp [isFailure] at h

theorem foldlM_poeStep_ok (sid0 : String) (ri : Bool)
    (pairs : List (RupOutcome × ℚ)) :
    ∀ acc : PMap × ℕ, (∀ pr ∈ pairs, isFailure pr.1 = false) →
      pairs.foldlM (poeStep sid0 ri) acc =
        Except.ok (pairs.foldl (pureAcc ri) acc) := by
  induction pairs with
  | nil => intro acc _; rfl
  | cons pr pairs ih =>
    intro acc h
    rw [List.foldlM_cons,
      poeStep_eq_pure sid0 ri acc pr (h pr (List.mem_cons_self pr pairs)),
      ok_bind, List.foldl_cons]
    exact ih _ (fun p hp => h p (List.mem_cons_of_mem _ hp))

theorem foldl_pureAcc_fst (ri : Bool) (pairs : List (RupOutcome × ℚ)) :
    ∀ acc : PMap × ℕ,
      (pairs.foldl (pureAcc ri) acc).1 = pairs.foldl (pureStep ri) acc.1 := by
  induction pairs with
  | nil => intro acc; rfl
  | cons pr pairs ih => intro acc; rw [List.foldl_cons, List.foldl_cons, ih]; rfl

theorem foldl_pureAcc_snd (ri : Bool) (pairs : List (RupOutcome × ℚ)) :
    ∀ acc : PMap × ℕ,
      (pairs.foldl (pureAcc ri) acc).2 =
        acc.2 + pairs.countP (fun pr => isCompute pr.1) := by
  induction pairs with
  | nil => intro acc; simp
  | cons pr pairs ih =>
    intro acc
    rw [List.foldl_cons, ih, List.countP_cons]
    simp only [pureAcc]
    cases h : isCompute pr.1 <;> simp [h] <;> omega

theorem poe_map_eq_pure (src : Source) (s_sites : List ℕ) (nvals : ℕ)
    (ri : Bool) (h : ∀ r ∈ src.ruptures, isFailure r = false) :
    poe_map src s_sites nvals ri = Except.ok (poePure src s_sites nvals ri) := by
  unfold poe_map
  rw [foldlM_poeStep_ok src.source_id ri (rupture_weight_pairs src) _
    (pairs_no_failure src h), map_ok]
  unfold poePure
  rw [foldl_pureAcc_fst, foldl_pureAcc_snd]
  simp

theorem foldlM_poeStep_error (sid0 : String) (ri : Bool)
    (pairs : List (RupOutcome × ℚ)) :
    ∀ (acc : PMap × ℕ) (k m : String), firstFailure pairs = some (k, m) →
      pairs.foldlM (poeStep sid0 ri) acc =
        Except.error ⟨k, m ++ " (source id=" ++ sid0 ++ ")"⟩ := by
  induction pairs with
  | nil => intro acc k m h; simp [firstFailure] at h
  | cons pr pairs ih =>
    intro acc k m h
    obtain ⟨r, w⟩ := pr
    cases r with
    | farAway =>
      rw [List.foldlM_cons,
        poeStep_eq_pure sid0 ri acc (RupOutcome.farAway, w) rfl, ok_bind]
      exact ih _ k m (by simpa [firstFailure, List.findSome?] using h)
    | compute a p =>
      rw [List.foldlM_cons,
        poeStep_eq_pure sid0 ri acc (RupOutcome.compute a p, w) rfl, ok_bind]
      exact ih _ k m (by simpa [firstFailure, List.findSome?] using h)
    | failure k2 m2 =>
      have hk : k2 = k ∧ m2 = m := by
        have := h
        simp [firstFailure, List.findSome?] at this
        exact this
      obtain ⟨rfl, rfl⟩ := hk
      rw [List.foldlM_cons]
      show ((Except.error ⟨k2, m2 ++ " (source id=" ++ sid0 ++ ")"⟩ :
        Except Err (PMap × ℕ)) >>= _) = _
      rw [error_bind]

theorem poe_map_error (src : Source) (s_sites : List ℕ) (nvals : ℕ)
    (ri : Bool) (k m : String)
    (h : firstFailure (rupture_weight_pairs src) = some (k, m)) :
    poe_map src s_sites nvals ri =
      Except.error ⟨k, m ++ " (source id=" ++ src.source_id ++ ")"⟩ := by
  unfold poe_map
  rw [foldlM_poeStep_error src.source_id ri (rupture_weight_pairs src) _ k m h,
    map_error]

theorem uniform_pair_mem (src : Source) (r : RupOutcome)
    (hr : r ∈ src.ruptures) :
    (r, (1 : ℚ) / (((if src.num_ruptures ≠ 0 then src.num_ruptures
      else src.ruptures.length) : ℕ) : ℚ)) ∈ rupture_weight_pairs src := by
  unfold rupture_weight_pairs
  exact List.mem_append_right _ (List.mem_map.mpr ⟨r, hr, rfl⟩)

theorem foldl_pureStep_farAway (ri : Bool) (pairs : List (RupOutcome × ℚ))
    (h : ∀ pr ∈ pairs, pr.1 = RupOutcome.farAway) :
    ∀ pm : PMap, pairs.foldl (pureStep ri) pm = pm := by
  induction pairs with
  | nil => intro pm; rfl
  | cons pr pairs ih =>
    intro pm
    obtain ⟨r, w⟩ := pr
    have hr : r = RupOutcome.farAway := h (r, w) (List.mem_cons_self _ _)
    subst hr
    rw [List.foldl_cons]
    exact ih (fun p hp => h p (List.mem_cons_of_mem _ hp)) pm

/-- C4: for a source whose ruptures are mutually exclusive with configured
weights summing to 1, the claim predicts an output field equal to the
weight-weighted sum of the per-rupture exceedance probabilities.  The code
instead double-yields every rupture of a weighted source, so the concrete
source src4 (a single rupture of configured weight 1 and exceedance one half)
evaluates to exceedance 0 with an effective-rupture count of 2, where the
claimed weighted sum is one half. -/
theorem c4_mutex_rupture_double_count :
    (poe_map src4 [0] 1 false).map (fun r => (r.field 0, r.eff_ruptures)) =
      Except.ok (some [(0 : ℚ)], 2) := by
  simp [poe_map, rupture_weight_pairs, src4, rupHalf, poeStep, pmapBuild,
    pmapCompl, addScaled, complCurve, mulCurve, List.foldlM, Except.map,
    Bind.bind, Except.bind, Pure.pure, Except.pure]
  norm_num

/-- C6: for every source exposing a weights attribute, rupture_weight_pairs
yields each rupture twice: the ruptures first paired with the configured
weights and then, because the weighted branch falls through without
returning, every rupture once more paired with the uniform weight
1 / num_ruptures. -/
theorem c6_weighted_source_double_yield (src : Source) (ws : List ℚ)
    (hw : src.weights = some ws) (hl : ws.length = src.ruptures.length)
    (hn : src.num_ruptures = src.ruptures.length)
    (hnz : src.ruptures.length ≠ 0) :
    (rupture_weight_pairs src).map Prod.fst = src.ruptures ++ src.ruptures ∧
    (rupture_weight_pairs src).map Prod.snd =
      ws ++ List.replicate src.ruptures.length
        ((1 : ℚ) / (src.ruptures.length : ℚ)) := by
  unfold rupture_weight_pairs
  rw [hw]
  have hif : (if src.num_ruptures ≠ 0 then src.num_ruptures
      else src.ruptures.length) = src.ruptures.length := by
    rw [hn]; simp
  rw [hif]
  constructor
  · rw [List.map_append, List.map_fst_zip _ _ (le_of_eq hl.symm)]
    simp [Function.comp_def]
  · rw [List.map_append, List.map_snd_zip _ _ (le_of_eq hl)]
    simp [Function.comp_def, List.map_const]

/-- Witness for C6 at the concrete weighted source src6: its single far-away
rupture is yielded twice, first with the configured weight two fifths, then
with the uniform weight 1. -/
theorem c6_weighted_source_double_yield_witness :
    (rupture_weight_pairs src6).map Prod.fst =
      [RupOutcome.farAway, RupOutcome.farAway] ∧
    (rupture_weight_pairs src6).map Prod.snd = [(2 : ℚ)/5, 1] := by
  have h := c6_weighted_source_double_yield src6 [(2 : ℚ)/5] rfl rfl rfl
    (by decide)
  simpa [src6] using h

/-- C7: a source all of whose rupture pairs are reported far away yields,
without raising, an effective-rupture count of exactly 0 and an untouched
field: after the final complement every site of the source site list carries
the all-zero exceedance curve, and sites outside it stay absent. -/
theorem c7_all_ruptures_far_away (src : Source) (s_sites : List ℕ)
    (nvals : ℕ)
    (h : ∀ pr ∈ rupture_weight_pairs src, pr.1 = RupOutcome.farAway) :
    poe_map src s_sites nvals =
      Except.ok ⟨(fun sid => if sid ∈ s_sites then
        some (List.replicate nvals 0) else none), 0⟩ := by
  have hnf : ∀ r ∈ src.ruptures, isFailure r = false := by
    intro r hr
    have h2 : r = RupOutcome.farAway := h _ (uniform_pair_mem src r hr)
    rw [h2]
    rfl
  rw [poe_map_eq_pure src s_sites nvals true hnf]
  unfold poePure
  rw [foldl_pureStep_farAway true (rupture_weight_pairs src) h]
  have hcount : (rupture_weight_pairs src).countP
      (fun pr => isCompute pr.1) = 0 := by
    rw [List.countP_eq_zero]
    intro pr hpr
    rw [h pr hpr]
    simp [isCompute]
  rw [hcount]
  have hfield : pmapCompl (pmapBuild nvals s_sites (if true then 1 else 0)) =
      fun sid => if sid ∈ s_sites then some (List.replicate nvals 0)
        else none := by
    funext sid
    by_cases hs : sid ∈ s_sites <;>
      simp [pmapCompl, pmapBuild, hs, complCurve, List.map_replicate]
  rw [hfield]

/-- Witness for C7 at the concrete source src7, both of whose ruptures are
far away, over sites 0 and 1 with two values per curve. -/
theorem c7_all_ruptures_far_away_witness :
    poe_map src7 [0, 1] 2 =
      Except.ok ⟨(fun sid => if sid ∈ [0, 1] then
        some (List.replicate 2 0) else none), 0⟩ := by
  apply c7_all_ruptures_far_away src7 [0, 1] 2
  intro pr hpr
  simp [rupture_weight_pairs, src7] at hpr
  rcases hpr with rfl | rfl <;> rfl

/-- C8: the first exception other than FarAwayRupture raised while processing
a source's ruptures is re-raised as a failure of the same exception type
whose message has the source id appended, and a group whose leading source
fails this way aborts its whole aggregation with that very error, producing
no result dictionary. -/
theorem c8_failure_reraised_with_source_id (src : Source) (s_sites : List ℕ)
    (nvals : ℕ) (ri : Bool) (k m : String)
    (hf : firstFailure (rupture_weight_pairs src) = some (k, m))
    (group : Group) (rest : List Source) (hg : group.sources = src :: rest)
    (gs : List GSIM) (pp : Param) (L : ℕ) (d : ℚ)
    (h1 : pp.imtls = some L) (h2 : pp.maximum_distance = some d) :
    poe_map src s_sites nvals ri =
      Except.error ⟨k, m ++ " (source id=" ++ src.source_id ++ ")"⟩ ∧
    pmap_from_grp group (PyArg.gsimList gs) (PyArg.paramDict pp) =
      Except.error ⟨k, m ++ " (source id=" ++ src.source_id ++ ")"⟩ := by
  refine ⟨poe_map_error src s_sites nvals ri k m hf, ?_⟩
  have hge : grpStep group (L * gs.length) emptyPMap src =
      Except.error ⟨k, m ++ " (source id=" ++ src.source_id ++ ")"⟩ := by
    unfold grpStep
    rw [poe_map_error src src.sites (L * gs.length) _ k m hf, error_bind]
  unfold pmap_from_grp
  simp only [getImtls, getMaxDist, asGsims, h1, h2, ok_bind]
  rw [hg, List.foldlM_cons, hge, error_bind, error_bind]

/-- Witness for C8 at the concrete source src8 inside the group grp8: the
injected ValueError is re-raised with the source id s8 in the message and the
group aggregation aborts with it. -/
theorem c8_failure_reraised_with_source_id_witness :
    poe_map src8 [0] 1 true =
      Except.error ⟨"ValueError", "boom (source id=s8)"⟩ ∧
    pmap_from_grp grp8 (PyArg.gsimList [("G")]) (PyArg.paramDict pp8) =
      Except.error ⟨"ValueError", "boom (source id=s8)"⟩ :=
  c8_failure_reraised_with_source_id src8 [0] 1 true ("ValueError") ("boom")
    (by rfl) grp8 [] (by rfl) [("G")] pp8 1 200 rfl rfl

theorem dedup_const {α : Type} [DecidableEq α] (l : List α) (a : α)
    (hne : l ≠ []) (hall : ∀ x ∈ l, x = a) : l.dedup = [a] := by
  induction l with
  | nil => cases hne rfl
  | cons x t ih =>
    have hx : x = a := hall x (List.mem_cons_self _ _)
    subst hx
    cases t with
    | nil => simp
    | cons y t2 =>
      have hy : y = x := (hall y (List.mem_cons_of_mem _
        (List.mem_cons_self _ _))).trans rfl
      have ht : (y :: t2).dedup = [x] := ih (by simp)
        (fun z hz => hall z (List.mem_cons_of_mem _ hz))
      rw [List.dedup_cons_of_mem, ht]
      rw [hy]
      exact List.mem_cons_self _ _

theorem foldlM_trtStep_single (nvals g0 : ℕ) (srcs : List Source)
    (hgids : ∀ s ∈ srcs, s.src_group_ids = [g0])
    (hok : ∀ s ∈ srcs, ∀ r ∈ s.ruptures, isFailure r = false) :
    ∀ pm : PMap, srcs.foldlM (trtStep nvals) [(some g0, pm)] =
      Except.ok [(some g0,
        srcs.foldl (fun q s => pmapOr q (contribAt nvals s)) pm)] := by
  induction srcs with
  | nil => intro pm; rfl
  | cons s t ih =>
    intro pm
    have hstep : trtStep nvals [(some g0, pm)] s =
        Except.ok [(some g0, pmapOr pm (contribAt nvals s))] := by
      unfold trtStep
      rw [poe_map_eq_pure s s.sites nvals true
        (hok s (List.mem_cons_self _ _)), ok_bind,
        hgids s (List.mem_cons_self _ _), List.foldlM_cons]
      have hd : dictOr [(some g0, pm)] (some g0)
          (poePure s s.sites nvals true).field =
          Except.ok [(some g0,
            pmapOr pm (poePure s s.sites nvals true).field)] := by
        unfold dictOr
        simp
      rw [hd, ok_bind, List.foldlM_nil]
      rfl
    rw [List.foldlM_cons, hstep, ok_bind, List.foldl_cons]
    exact ih (fun s2 h2 => hgids s2 (List.mem_cons_of_mem _ h2))
      (fun s2 h2 => hok s2 (List.mem_cons_of_mem _ h2)) _

theorem pmap_from_trt_ok (srcs : List Source) (g0 : ℕ) (gs : List GSIM)
    (pp : Param) (L : ℕ) (d : ℚ) (h1 : pp.imtls = some L)
    (h2 : pp.maximum_distance = some d)
    (hgid : ∀ s ∈ srcs, s.src_group_id = some g0)
    (hgids : ∀ s ∈ srcs, s.src_group_ids = [g0])
    (hok : ∀ s ∈ srcs, ∀ r ∈ s.ruptures, isFailure r = false) :
    pmap_from_trt srcs (PyArg.gsimList gs) (PyArg.paramDict pp) =
      Except.ok (unitAcc g0 (L * gs.length) srcs) := by
  rcases srcs with _ | ⟨s, t⟩
  · unfold pmap_from_trt
    simp [getImtls, getMaxDist, asGsims, h1, h2, ok_bind, unitAcc]
  · unfold pmap_from_trt
    simp only [getImtls, getMaxDist, asGsims, h1, h2, ok_bind]
    have hded : ((s :: t).map (fun s2 => s2.src_group_id)).dedup =
        [some g0] := by
      apply dedup_const
      · simp
      · intro x hx
        obtain ⟨s2, hs2, he⟩ := List.mem_map.mp hx
        rw [← he]
        exact hgid s2 hs2
    rw [hded]
    rw [show ([some g0].map (fun g => (g, emptyPMap))) =
      [(some g0, emptyPMap)] from rfl]
    rw [foldlM_trtStep_single (L * gs.length) g0 (s :: t) hgids hok emptyPMap,
      ok_bind]
    rfl

theorem mapM_trt_ok (units : List (List Source)) (g0 : ℕ) (gs : List GSIM)
    (pp : Param) (L : ℕ) (d : ℚ) (h1 : pp.imtls = some L)
    (h2 : pp.maximum_distance = some d)
    (hgid : ∀ u ∈ units, ∀ s ∈ u, s.src_group_id = some g0)
    (hgids : ∀ u ∈ units, ∀ s ∈ u, s.src_group_ids = [g0])
    (hok : ∀ u ∈ units, ∀ s ∈ u, ∀ r ∈ s.ruptures, isFailure r = false) :
    units.mapM (fun u => pmap_from_trt u (PyArg.gsimList gs)
        (PyArg.paramDict pp)) =
      Except.ok (units.map (unitAcc g0 (L * gs.length))) := by
  induction units with
  | nil => rfl
  | cons u units ih =>
    rw [List.mapM_cons,
      pmap_from_trt_ok u g0 gs pp L d h1 h2
        (hgid u (List.mem_cons_self _ _)) (hgids u (List.mem_cons_self _ _))
        (hok u (List.mem_cons_self _ _)),
      ok_bind,
      ih (fun v hv => hgid v (List.mem_cons_of_mem _ hv))
        (fun v hv => hgids v (List.mem_cons_of_mem _ hv))
        (fun v hv => hok v (List.mem_cons_of_mem _ hv)),
      ok_bind]
    rfl

theorem unitField_at (nvals : ℕ) (u : List Source) (sid : ℕ) :
    ∀ q0 : PMap,
      (u.foldl (fun q s => pmapOr q (contribAt nvals s)) q0) sid =
        (u.map (fun s => contribAt nvals s sid)).foldl orOpt (q0 sid) := by
  induction u with
  | nil => intro q0; rfl
  | cons s t ih =>
    intro q0
    rw [List.foldl_cons, List.map_cons, List.foldl_cons, ih]
    rfl

theorem topFold_units_at (g0 nvals : ℕ) (units : List (List Source))
    (sid : ℕ) :
    ∀ pm : PMap,
      ((units.map (unitAcc g0 nvals)).foldl
        (fun pm2 acc => acc.pmaps.foldl (fun pm3 gp => pmapOr pm3 gp.2) pm2)
        pm) sid =
      (units.map (fun u =>
        (u.map (fun s => contribAt nvals s sid)).foldl orOpt none)).foldl
          orOpt (pm sid) := by
  induction units with
  | nil => intro pm; rfl
  | cons u units ih =>
    intro pm
    simp only [List.map_cons, List.foldl_cons]
    rw [ih]
    congr 1
    rcases u with _ | ⟨s, t⟩
    · simp [unitAcc, orOpt_none_right]
    · show (pmapOr pm (unitField nvals (s :: t))) sid = _
      show orOpt (pm sid) (unitField nvals (s :: t) sid) = _
      unfold unitField
      rw [unitField_at nvals (s :: t) sid emptyPMap]
      rfl

theorem foldl_orOpt_flatten (uss : List (List (Option Curve))) :
    ∀ b : Option Curve,
      (uss.map (fun us => us.foldl orOpt none)).foldl orOpt b =
        uss.flatten.foldl orOpt b := by
  induction uss with
  | nil => intro b; rfl
  | cons us uss ih =>
    intro b
    rw [List.map_cons, List.foldl_cons, List.flatten_cons, List.foldl_append,
      ih]
    congr 1
    have h3 := @List.foldl_assoc _ orOpt _ us b none
    rw [orOpt_none_right] at h3
    exact h3.symm

theorem indepUnitsField_at (units : List (List Source)) (g0 : ℕ)
    (gs : List GSIM) (pp : Param) (L : ℕ) (d : ℚ) (h1 : pp.imtls = some L)
    (h2 : pp.maximum_distance = some d)
    (hgid : ∀ s ∈ units.flatten, s.src_group_id = some g0)
    (hgids : ∀ s ∈ units.flatten, s.src_group_ids = [g0])
    (hok : ∀ s ∈ units.flatten, ∀ r ∈ s.ruptures, isFailure r = false)
    (sid : ℕ) :
    (indepUnitsField units (PyArg.gsimList gs) (PyArg.paramDict pp)).map
        (fun fm => fm sid) =
      Except.ok ((units.flatten.map
        (fun s => contribAt (L * gs.length) s sid)).foldl orOpt none) := by
  unfold indepUnitsField
  rw [mapM_trt_ok units g0 gs pp L d h1 h2
    (fun u hu s hs => hgid s (List.mem_flatten.mpr ⟨u, hu, hs⟩))
    (fun u hu s hs => hgids s (List.mem_flatten.mpr ⟨u, hu, hs⟩))
    (fun u hu s hs => hok s (List.mem_flatten.mpr ⟨u, hu, hs⟩)), ok_bind,
    map_ok]
  rw [topFold_units_at g0 (L * gs.length) units sid emptyPMap]
  rw [show (emptyPMap : PMap) sid = none from rfl]
  have hmm : (units.map (fun u =>
      (u.map (fun s => contribAt (L * gs.length) s sid)).foldl orOpt none)) =
      ((units.map (List.map (fun s => contribAt (L * gs.length) s sid))).map
        (fun us => us.foldl orOpt none)) := by
    rw [List.map_map]
    rfl
  rw [hmm, foldl_orOpt_flatten, ← List.map_flatten]

/-- C3: for a group of independent sources sharing one group id, running them
as any partition into work units, in any order (each unit executing
pmap_from_trt over its sources, results folded with probabilistic OR into
the top-level field), produces the same final field as running them as one
work unit; the final field is independent of the partitioning and ordering
of the dispatch. -/
theorem c3_partition_and_order_invariant (sources : List Source) (g0 : ℕ)
    (gs : List GSIM) (pp : Param) (L : ℕ) (d : ℚ)
    (h1 : pp.imtls = some L) (h2 : pp.maximum_distance = some d)
    (hgid : ∀ s ∈ sources, s.src_group_id = some g0)
    (hgids : ∀ s ∈ sources, s.src_group_ids = [g0])
    (hok : ∀ s ∈ sources, ∀ r ∈ s.ruptures, isFailure r = false)
    (units : List (List Source)) (hu : units.flatten.Perm sources)
    (sid : ℕ) :
    (indepUnitsField units (PyArg.gsimList gs) (PyArg.paramDict pp)).map
        (fun fm => fm sid) =
      (indepUnitsField [sources] (PyArg.gsimList gs) (PyArg.paramDict pp)).map
        (fun fm => fm sid) := by
  rw [indepUnitsField_at units g0 gs pp L d h1 h2
    (fun s hs => hgid s (hu.mem_iff.mp hs))
    (fun s hs => hgids s (hu.mem_iff.mp hs))
    (fun s hs => hok s (hu.mem_iff.mp hs)) sid]
  rw [indepUnitsField_at [sources] g0 gs pp L d h1 h2
    (fun s hs => hgid s (by simpa using hs))
    (fun s hs => hgids s (by simpa using hs))
    (fun s hs => hok s (by simpa using hs)) sid]
  have hflat : ([sources] : List (List Source)).flatten = sources := by simp
  rw [hflat]
  exact congrArg Except.ok
    ((hu.map (fun s => contribAt (L * gs.length) s sid)).foldl_eq none)

/-- Witness for C3: the two-source group of src3a and src3b run as two work
units in reversed order equals the single-unit run. -/
theorem c3_partition_and_order_invariant_witness :
    (indepUnitsField [[src3b], [src3a]] (PyArg.gsimList [("G")])
        (PyArg.paramDict pp3)).map (fun fm => fm 0) =
      (indepUnitsField [[src3a, src3b]] (PyArg.gsimList [("G")])
        (PyArg.paramDict pp3)).map (fun fm => fm 0) := by
  apply c3_partition_and_order_invariant [src3a, src3b] 7 [("G")] pp3 1 200
    rfl rfl
  · intro s hs
    rcases List.mem_cons.mp hs with rfl | hs2
    · rfl
    · rcases List.mem_singleton.mp hs2 with rfl
      rfl
  · intro s hs
    rcases List.mem_cons.mp hs with rfl | hs2
    · rfl
    · rcases List.mem_singleton.mp hs2 with rfl
      rfl
  · intro s hs
    rcases List.mem_cons.mp hs with rfl | hs2
    · intro r hr
      rcases List.mem_singleton.mp hr with rfl
      rfl
    · rcases List.mem_singleton.mp hs2 with rfl
      intro r hr
      rcases List.mem_singleton.mp hr with rfl
      rfl
  · exact List.Perm.swap src3a src3b []

theorem map_fst_zip_congr {α β : Type} (r : List α) :
    ∀ ws ws2 : List β, ws.length = ws2.length →
      (r.zip ws).map Prod.fst = (r.zip ws2).map Prod.fst := by
  induction r with
  | nil => intro ws ws2 _; rfl
  | cons x t ih =>
    intro ws ws2 h
    cases ws with
    | nil =>
      cases ws2 with
      | nil => rfl
      | cons y2 t2 => simp at h
    | cons y t1 =>
      cases ws2 with
      | nil => simp at h
      | cons y2 t2 =>
        simp only [List.zip_cons_cons, List.map_cons]
        rw [ih t1 t2 (by simpa using h)]

theorem pairs_fst_weights_congr (s : Source) (ws ws2 : List ℚ)
    (hlen : ws.length = ws2.length) :
    (rupture_weight_pairs (withWeights s ws)).map Prod.fst =
      (rupture_weight_pairs (withWeights s ws2)).map Prod.fst := by
  show ((List.zip s.ruptures ws) ++
      (s.ruptures.map (fun r => (r, (1 : ℚ) /
        (((if s.num_ruptures ≠ 0 then s.num_ruptures
          else s.ruptures.length) : ℕ) : ℚ))))).map Prod.fst =
    ((List.zip s.ruptures ws2) ++
      (s.ruptures.map (fun r => (r, (1 : ℚ) /
        (((if s.num_ruptures ≠ 0 then s.num_ruptures
          else s.ruptures.length) : ℕ) : ℚ))))).map Prod.fst
  rw [List.map_append, List.map_append]
  congr 1
  exact map_fst_zip_congr s.ruptures ws ws2 hlen

theorem foldlM_poeStep_fst_congr (sid0 : String)
    (p1 : List (RupOutcome × ℚ)) :
    ∀ p2 : List (RupOutcome × ℚ), p1.map Prod.fst = p2.map Prod.fst →
      ∀ acc : PMap × ℕ,
        p1.foldlM (poeStep sid0 true) acc =
          p2.foldlM (poeStep sid0 true) acc := by
  induction p1 with
  | nil =>
    intro p2 h acc
    cases p2 with
    | nil => rfl
    | cons pr2 t2 => simp at h
  | cons pr t ih =>
    intro p2 h acc
    cases p2 with
    | nil => simp at h
    | cons pr2 t2 =>
      simp only [List.map_cons, List.cons.injEq] at h
      obtain ⟨hfst, htail⟩ := h
      rw [List.foldlM_cons, List.foldlM_cons]
      have hstep : poeStep sid0 true acc pr = poeStep sid0 true acc pr2 := by
        obtain ⟨r, w⟩ := pr
        obtain ⟨r2, w2⟩ := pr2
        simp only at hfst
        subst hfst
        cases r <;> rfl
      rw [hstep]
      cases hres : poeStep sid0 true acc pr2 with
      | error e => rw [error_bind, error_bind]
      | ok b =>
        rw [ok_bind, ok_bind]
        exact ih t2 htail b

theorem poe_map_weights_congr (s : Source) (ws ws2 : List ℚ)
    (hlen : ws.length = ws2.length) (x : List ℕ) (n : ℕ) :
    poe_map (withWeights s ws) x n true =
      poe_map (withWeights s ws2) x n true := by
  unfold poe_map
  rw [foldlM_poeStep_fst_congr ((withWeights s ws).source_id)
    (rupture_weight_pairs (withWeights s ws))
    (rupture_weight_pairs (withWeights s ws2))
    (pairs_fst_weights_congr s ws ws2 hlen) _]
  rfl

theorem trt_weights_congr (s : Source) (ws ws2 : List ℚ)
    (hlen : ws.length = ws2.length) (gsims param : PyArg) :
    pmap_from_trt [withWeights s ws] gsims param =
      pmap_from_trt [withWeights s ws2] gsims param := by
  have hfold : ∀ (nv : ℕ) (dct : List (Option ℕ × PMap)),
      [withWeights s ws].foldlM (trtStep nv) dct =
        [withWeights s ws2].foldlM (trtStep nv) dct := by
    intro nv dct
    rw [List.foldlM_cons, List.foldlM_cons]
    have hts : trtStep nv dct (withWeights s ws) =
        trtStep nv dct (withWeights s ws2) := by
      unfold trtStep
      rw [show poe_map (withWeights s ws) (withWeights s ws).sites nv true =
        poe_map (withWeights s ws2) (withWeights s ws2).sites nv true from
        poe_map_weights_congr s ws ws2 hlen s.sites nv]
      rfl
    rw [hts]
  unfold pmap_from_trt
  cases hI : getImtls param with
  | error e => rfl
  | ok L =>
    cases hM : getMaxDist param with
    | error e => rfl
    | ok d =>
      cases hG : asGsims gsims with
      | error e => rfl
      | ok gs =>
        simp only [ok_bind]
        rw [hfold (L * gs.length)]
        rfl

/-- C10: pmap_from_trt invokes poe_map with its rup_indep parameter left at
the default True, so the configured mutex rupture weights of a weighted
source have no effect on this path (first conjunct), and a single
mutex-rupture source dispatched through pmap_from_trt is combined with the
independent rupture rule: its group entry is exactly the independent-path
poe_map field (second conjunct). -/
theorem c10_trt_ignores_rupture_mutex (s : Source) (ws ws2 : List ℚ)
    (hlen : ws.length = ws2.length) (gsims param : PyArg) (g0 : ℕ)
    (gs : List GSIM) (pp : Param) (L : ℕ) (d : ℚ)
    (h1 : pp.imtls = some L) (h2 : pp.maximum_distance = some d)
    (hsg : s.src_group_id = some g0) (hsgs : s.src_group_ids = [g0])
    (hok : ∀ r ∈ s.ruptures, isFailure r = false) (sid : ℕ) :
    pmap_from_trt [withWeights s ws] gsims param =
      pmap_from_trt [withWeights s ws2] gsims param ∧
    (pmap_from_trt [withWeights s ws] (PyArg.gsimList gs)
        (PyArg.paramDict pp)).map
      (fun a => a.pmaps.map (fun kp => (kp.1, kp.2 sid))) =
      Except.ok [(some g0,
        (poePure (withWeights s ws) s.sites (L * gs.length) true).field sid)] := by
  refine ⟨trt_weights_congr s ws ws2 hlen gsims param, ?_⟩
  have hone := pmap_from_trt_ok [withWeights s ws] g0 gs pp L d h1 h2
    (by intro s2 hs2; rcases List.mem_singleton.mp hs2 with rfl; exact hsg)
    (by intro s2 hs2; rcases List.mem_singleton.mp hs2 with rfl; exact hsgs)
    (by intro s2 hs2; rcases List.mem_singleton.mp hs2 with rfl; exact hok)
  rw [hone]
  rfl

/-- Witness for C10 at the concrete source srcW: changing the configured
rupture weight from 1 to 7 leaves the result unchanged, and the group entry
at site 0 is the independent combination three quarters (the one rupture of
no-exceedance one half is multiplied in twice by the double yield), not the
mutex weighted sum. -/
theorem c10_trt_ignores_rupture_mutex_witness :
    pmap_from_trt [withWeights srcW [(1 : ℚ)]] (PyArg.gsimList [("G")])
        (PyArg.paramDict pp10) =
      pmap_from_trt [withWeights srcW [(7 : ℚ)]] (PyArg.gsimList [("G")])
        (PyArg.paramDict pp10) ∧
    (pmap_from_trt [withWeights srcW [(1 : ℚ)]] (PyArg.gsimList [("G")])
        (PyArg.paramDict pp10)).map
      (fun a => a.pmaps.map (fun kp => (kp.1, kp.2 0))) =
      Except.ok [(some 0, some [(3 : ℚ)/4])] := by
  have h := c10_trt_ignores_rupture_mutex srcW [(1 : ℚ)] [(7 : ℚ)] rfl
    (PyArg.gsimList [("G")]) (PyArg.paramDict pp10) 0 [("G")] pp10 1 200
    rfl rfl rfl rfl
    (by
      intro r hr
      have hr2 : r = rupHalf := by simpa [srcW] using hr
      rw [hr2]
      rfl) 0
  refine ⟨h.1, ?_⟩
  rw [h.2]
  have hval : (poePure (withWeights srcW [(1 : ℚ)]) srcW.sites
      (1 * [("G")].length) true).field 0 = some [(3 : ℚ)/4] := by
    simp [poePure, rupture_weight_pairs, withWeights, srcW, rupHalf, pureStep,
      pmapBuild, pmapCompl, complCurve, mulCurve]
    norm_num
  rw [hval]


theorem mutexWeightFn_of_ok (group : Group) (sid0 : String) (w : ℚ)
    (h : mutexWeight group sid0 = Except.ok w) :
    mutexWeightFn group sid0 = w := by
  unfold mutexWeight at h
  unfold mutexWeightFn
  cases hf : (List.zip group.sources group.srcs_weights).reverse.find?
      (fun p => p.1.source_id == sid0) with
  | none => rw [hf] at h; simp at h
  | some p =>
    rw [hf] at h
    simp only [Except.ok.injEq] at h
    exact h

theorem grpStep_eq_pure (group : Group) (nvals : ℕ) (pm : PMap) (s : Source)
    (hok : ∀ r ∈ s.ruptures, isFailure r = false)
    (hw : ∃ w, mutexWeight group s.source_id = Except.ok w) :
    grpStep group nvals pm s = Except.ok (pureGrpStep group nvals pm s) := by
  obtain ⟨w, hwe⟩ := hw
  unfold grpStep
  rw [poe_map_eq_pure s s.sites nvals _ hok, ok_bind, hwe, ok_bind,
    ← mutexWeightFn_of_ok group s.source_id w hwe]
  rfl

theorem foldlM_grpStep (group : Group) (nvals : ℕ) (srcs : List Source) :
    ∀ pm : PMap, (∀ s ∈ srcs, ∀ r ∈ s.ruptures, isFailure r = false) →
      (∀ s ∈ srcs, ∃ w, mutexWeight group s.source_id = Except.ok w) →
      srcs.foldlM (grpStep group nvals) pm =
        Except.ok (srcs.foldl (pureGrpStep group nvals) pm) := by
  induction srcs with
  | nil => intro pm _ _; rfl
  | cons s t ih =>
    intro pm hok hw
    rw [List.foldlM_cons,
      grpStep_eq_pure group nvals pm s (hok s (List.mem_cons_self _ _))
        (hw s (List.mem_cons_self _ _)), ok_bind, List.foldl_cons]
    exact ih _ (fun s2 h2 => hok s2 (List.mem_cons_of_mem _ h2))
      (fun s2 h2 => hw s2 (List.mem_cons_of_mem _ h2))

theorem pmap_from_grp_ok (group : Group) (gs : List GSIM) (pp : Param)
    (L : ℕ) (d : ℚ) (h1 : pp.imtls = some L)
    (h2 : pp.maximum_distance = some d)
    (hok : ∀ s ∈ group.sources, ∀ r ∈ s.ruptures, isFailure r = false)
    (hw : ∀ s ∈ group.sources, ∃ w,
      mutexWeight group s.source_id = Except.ok w)
    (hnp : group.grp_probability = none) :
    pmap_from_grp group (PyArg.gsimList gs) (PyArg.paramDict pp) =
      Except.ok ⟨[(some group.id,
        group.sources.foldl (pureGrpStep group (L * gs.length))
          emptyPMap)]⟩ := by
  unfold pmap_from_grp
  simp only [getImtls, getMaxDist, asGsims, h1, h2, ok_bind]
  rw [foldlM_grpStep group (L * gs.length) group.sources emptyPMap hok hw,
    ok_bind, hnp]

theorem grpFold_at (group : Group) (nvals : ℕ) (srcs : List Source)
    (sid : ℕ) :
    ∀ pm : PMap,
      (srcs.foldl (pureGrpStep group nvals) pm) sid =
        match srcs.filterMap (fun s =>
          ((poePure s s.sites nvals
            (group.rup_interdep == "indep")).field sid).map
            (fun c => scaleCurve (mutexWeightFn group s.source_id) c)) with
        | [] => pm sid
        | c :: cs => some ((c :: cs).foldl addCurve
            ((pm sid).getD (List.replicate nvals 0))) := by
  induction srcs with
  | nil => intro pm; rfl
  | cons s t ih =>
    intro pm
    rw [List.foldl_cons, List.filterMap_cons, ih (pureGrpStep group nvals pm s)]
    have hstep : (pureGrpStep group nvals pm s) sid =
        match (poePure s s.sites nvals
          (group.rup_interdep == "indep")).field sid with
        | none => pm sid
        | some c => some (addCurve ((pm sid).getD (List.replicate nvals 0))
            (scaleCurve (mutexWeightFn group s.source_id) c)) := rfl
    cases hc : (poePure s s.sites nvals
        (group.rup_interdep == "indep")).field sid with
    | none =>
      rw [hc] at hstep
      simp only [hc, Option.map_none']
      cases ht : t.filterMap (fun s2 =>
          ((poePure s2 s2.sites nvals
            (group.rup_interdep == "indep")).field sid).map
            (fun c => scaleCurve (mutexWeightFn group s2.source_id) c)) with
      | nil => rw [hstep]
      | cons c2 cs => rw [hstep]
    | some c =>
      rw [hc] at hstep
      simp only [hc, Option.map_some']
      cases ht : t.filterMap (fun s2 =>
          ((poePure s2 s2.sites nvals
            (group.rup_interdep == "indep")).field sid).map
            (fun c => scaleCurve (mutexWeightFn group s2.source_id) c)) with
      | nil =>
        rw [hstep]
        rfl
      | cons c2 cs =>
        rw [hstep]
        simp only [Option.getD_some, List.foldl_cons]

/-- C5: for a mutex source group whose parameters and weights resolve and
whose ruptures raise nothing, pmap_from_grp folds each source exceedance
field into the group field by weighted add with that source configured
mutex weight, starting from the all-zero curve for a site not yet present:
the entry for the group id at every site equals the weighted sum
groupWeightedSum (absent exactly when no source touches the site). -/
theorem c5_mutex_group_weighted_add (group : Group) (gs : List GSIM)
    (pp : Param) (L : ℕ) (d : ℚ) (h1 : pp.imtls = some L)
    (h2 : pp.maximum_distance = some d)
    (hok : ∀ s ∈ group.sources, ∀ r ∈ s.ruptures, isFailure r = false)
    (hw : ∀ s ∈ group.sources, ∃ w,
      mutexWeight group s.source_id = Except.ok w)
    (hnp : group.grp_probability = none) (sid : ℕ) :
    (pmap_from_grp group (PyArg.gsimList gs) (PyArg.paramDict pp)).map
      (fun a => a.pmaps.map (fun kp => (kp.1, kp.2 sid))) =
      Except.ok [(some group.id,
        groupWeightedSum group (L * gs.length) sid)] := by
  rw [pmap_from_grp_ok group gs pp L d h1 h2 hok hw hnp, map_ok]
  have hfold := grpFold_at group (L * gs.length) group.sources sid emptyPMap
  unfold groupWeightedSum
  cases hc : group.sources.filterMap (fun s =>
      ((poePure s s.sites (L * gs.length)
        (group.rup_interdep == "indep")).field sid).map
        (fun c => scaleCurve (mutexWeightFn group s.source_id) c)) with
  | nil =>
    rw [hc] at hfold
    simp only [List.map_cons, List.map_nil, hfold, hc]
    rfl
  | cons c cs =>
    rw [hc] at hfold
    simp only [List.map_cons, List.map_nil, hfold, hc]
    rfl

/-- Witness for C5 at the concrete mutex group grp5: two sources of weights
three tenths and seven tenths, each contributing exceedance 1 at site 0,
yield exactly 1 at that site. -/
theorem c5_mutex_group_weighted_add_witness :
    (pmap_from_grp grp5 (PyArg.gsimList [("G")]) (PyArg.paramDict pp5)).map
      (fun a => a.pmaps.map (fun kp => (kp.1, kp.2 0))) =
      Except.ok [(some 0, some [(1 : ℚ)])] := by
  have h := c5_mutex_group_weighted_add grp5 [("G")] pp5 1 200 rfl rfl
    (by
      intro s hs
      rcases List.mem_cons.mp hs with rfl | hs2
      · intro r hr
        rcases List.mem_singleton.mp hr with rfl
        rfl
      · rcases List.mem_singleton.mp hs2 with rfl
        intro r hr
        rcases List.mem_singleton.mp hr with rfl
        rfl)
    (by
      intro s hs
      rcases List.mem_cons.mp hs with rfl | hs2
      · exact ⟨(3 : ℚ)/10, rfl⟩
      · rcases List.mem_singleton.mp hs2 with rfl
        exact ⟨(7 : ℚ)/10, rfl⟩)
    rfl 0
  rw [h]
  have hval : groupWeightedSum grp5 (1 * [("G")].length) 0 = some [(1 : ℚ)] := by
    simp [groupWeightedSum, grp5, src5a, src5b, poePure, rupture_weight_pairs,
      pureStep, pmapBuild, pmapCompl, complCurve, mulCurve, mutexWeightFn,
      mutexWeight, scaleCurve, addCurve]
    norm_num
  rw [hval]
  rfl

theorem calcGroupStep_error (f : SrcFilter) (gsim : GSIM) (pm : PMap)
    (group : Group) :
    calcGroupStep f gsim pm group =
      Except.error ⟨"TypeError", "string key applied to a non-dict argument"⟩ := by
  unfold calcGroupStep
  cases hmx : group.src_interdep == "mutex"
  · rfl
  · rfl

theorem calc_foldlM_error (f : SrcFilter) (gsim : GSIM) (g : Group)
    (gl : List Group) :
    (g :: gl).foldlM (calcGroupStep f gsim) emptyPMap =
      Except.error ⟨"TypeError", "string key applied to a non-dict argument"⟩ := by
  rw [List.foldlM_cons, calcGroupStep_error, error_bind]

theorem calc_gsim_cases (g0 : Group) (gl : List Group) (s0 : Source)
    (sl : List Source) (f : SrcFilter) (L : ℕ) (gbt : String → Option GSIM)
    (t : Option ℚ) (hsrc : g0.sources = s0 :: sl) :
    calc_hazard_curves (g0 :: gl) f L gbt t =
      match gbt s0.tectonic_region_type with
      | none => Except.error ⟨"KeyError", s0.tectonic_region_type⟩
      | some gsim =>
          ((assignIds 0 (g0 :: gl)).foldlM (calcGroupStep f gsim) emptyPMap)
            >>= (fun pm => Except.ok (convert pm L f.sitecol)) := by
  unfold calc_hazard_curves
  simp only [assignIds, hsrc, List.map_cons, headIdx, List.head?, ok_bind]
  have htrt : (match s0.src_group_id with
      | none => { s0 with src_group_id := some 0 }
      | some _ => s0).tectonic_region_type = s0.tectonic_region_type := by
    cases s0.src_group_id <;> rfl
  rw [htrt]
  cases hgbt : gbt s0.tectonic_region_type with
  | none => rfl
  | some gsim => simp only [ok_bind]

/-- C9: calc_hazard_curves resolves exactly one ground-motion model, keyed by
the tectonic region type of the first source of the first group: the result
depends on the gsim assignment only through its value at that one key (so
every later group is processed with the same model regardless of its own
type), and an assignment undefined at that key fails with KeyError on it. -/
theorem c9_single_gsim_resolution (groups : List Group) (f : SrcFilter)
    (L : ℕ) (gbt gbt2 : String → Option GSIM) (t : Option ℚ) (g0 : Group)
    (s0 : Source) (hg : groups.head? = some g0)
    (hs : g0.sources.head? = some s0) :
    (gbt s0.tectonic_region_type = gbt2 s0.tectonic_region_type →
      calc_hazard_curves groups f L gbt t =
        calc_hazard_curves groups f L gbt2 t) ∧
    (gbt s0.tectonic_region_type = none →
      calc_hazard_curves groups f L gbt t =
        Except.error ⟨"KeyError", s0.tectonic_region_type⟩) := by
  rcases groups with _ | ⟨g, gl⟩
  · simp at hg
  · have hg2 : g = g0 := by simpa using hg
    rcases hsrc : g0.sources with _ | ⟨s, sl⟩
    · rw [hsrc] at hs
      simp at hs
    · have hs2 : s = s0 := by rw [hsrc] at hs; simpa using hs
      have hsrc0 : g0.sources = s0 :: sl := by rw [hsrc, hs2]
      constructor
      · intro he
        rw [hg2, calc_gsim_cases g0 gl s0 sl f L gbt t hsrc0,
          calc_gsim_cases g0 gl s0 sl f L gbt2 t hsrc0, he]
      · intro hn
        rw [hg2, calc_gsim_cases g0 gl s0 sl f L gbt t hsrc0, hn]

/-- Witness for C9 at the concrete group grp9: two assignments agreeing at T1
give identical results, and the empty assignment fails with KeyError T1. -/
theorem c9_single_gsim_resolution_witness :
    calc_hazard_curves [grp9] ⟨1⟩ 1 gbt9a none =
      calc_hazard_curves [grp9] ⟨1⟩ 1 gbt9b none ∧
    calc_hazard_curves [grp9] ⟨1⟩ 1 gbt9n none =
      Except.error ⟨"KeyError", "T1"⟩ :=
  ⟨(c9_single_gsim_resolution [grp9] ⟨1⟩ 1 gbt9a gbt9b none grp9 src9
      rfl rfl).1 rfl,
   (c9_single_gsim_resolution [grp9] ⟨1⟩ 1 gbt9n gbt9b none grp9 src9
      rfl rfl).2 rfl⟩

/-- C1: the claim that calc_hazard_curves hands the Group Aggregators the
gsim list in their gsims parameter and a complete parameter dictionary in
their param parameter fails on the code: ss_filter occupies the gsims slot,
the gsim list occupies the param slot, and the dictionary lookup then raises
TypeError (first and second conjuncts); moreover the dictionary
calc_hazard_curves builds lacks the maximum_distance key, so even a
correctly aligned call fails its parameter lookup with KeyError (third
conjunct). -/
theorem c1_worker_call_contract_violated :
    calc_hazard_curves [grp1m, grp1i] ⟨1⟩ 1 gbt1 none =
      Except.error ⟨"TypeError", "string key applied to a non-dict argument"⟩ ∧
    pmap_from_trt grp1i.sources (PyArg.srcFilter ⟨1⟩)
        (PyArg.gsimList [("M1")]) =
      Except.error ⟨"TypeError", "string key applied to a non-dict argument"⟩ ∧
    pmap_from_grp grp1m (PyArg.gsimList [("M1")])
        (PyArg.paramDict ⟨some 1, none, none⟩) =
      Except.error ⟨"KeyError", "maximum_distance"⟩ :=
  ⟨rfl, rfl, rfl⟩

/-- C2: the claimed end-to-end behavior (a single one-rupture source of
exceedance p in an independent group with activation probability 1 yields a
dense curve of exactly p at its affected sites and 0 elsewhere) fails on the
code: the misaligned worker call makes calc_hazard_curves raise TypeError on
this very input instead of returning any curve. -/
theorem c2_end_to_end_crashes :
    calc_hazard_curves [grp2] ⟨3⟩ 1 gbt2 none =
      Except.error ⟨"TypeError", "string key applied to a non-dict argument"⟩ :=
  rfl

end HC
